import Mathlib

/-!
Shallow embedding of the local persistence and credential-resolution core of
the `vibing2-desktop` Tauri backend (`src-tauri/src/commands.rs`,
`src-tauri/src/auth.rs`, `src-tauri/src/database.rs`).

The SQLite store is modelled as explicit state: lists of rows for the
`projects`, `messages` and `settings` tables and an optional singleton row for
`auth_credentials`.  Effects that the Rust code obtains from the outside world
are passed in as parameters:
* the wall clock (`now`, the RFC3339 string `Utc::now().to_rfc3339()`),
* the random draws of `generate_id`,
* the OS keychain probe result, the remote HTTP validation outcome, and
* a fault oracle recording which SQL statements fail (transient I/O).

`ORDER BY` on a column is modelled as a stable insertion sort on the row list,
matching SQLite's behaviour of scanning rows in insertion (rowid) order when
keys compare equal.  Primary-key and uniqueness constraints of the schema in
`database.rs` are modelled concretely where the code can trip on them
(message-id collisions), and as a well-formedness invariant `DB.WF` otherwise.
-/

namespace Vibing2

/-- `Message` DTO from `commands.rs`: the payload sent by the UI. -/
structure Message where
  id : String
  role : String
  content : String
  deriving DecidableEq, Repr

/-- `SaveProjectRequest` from `commands.rs`. -/
structure SaveProjectRequest where
  project_id : Option String
  name : String
  project_type : String
  active_agents : String
  messages : List Message
  current_code : Option String
  deriving DecidableEq, Repr

/-- A row of the `projects` table (the columns the commands read/write;
`likes`/`forks` are never touched by the command layer and are omitted). -/
structure ProjectRow where
  id : String
  name : String
  description : Option String
  project_type : String
  active_agents : String
  current_code : Option String
  visibility : String
  user_id : String
  created_at : String
  updated_at : String
  deriving DecidableEq, Repr

/-- A row of the `messages` table. -/
structure MessageRow where
  id : String
  role : String
  content : String
  project_id : String
  created_at : String
  deriving DecidableEq, Repr

/-- A row of the `settings` table. -/
structure SettingRow where
  id : String
  key : String
  value : String
  updated_at : String
  deriving DecidableEq, Repr

/-- The `auth_credentials` singleton row / `ClaudeCredentials` DTO
(`auth.rs`).  `last_validated`/timestamps are not read back by any command
and are omitted. -/
structure ClaudeCredentials where
  api_key : String
  email : Option String
  subscription_tier : Option String
  deriving DecidableEq, Repr

/-- `AuthStatus` DTO from `auth.rs`. -/
structure AuthStatus where
  authenticated : Bool
  source : String
  email : Option String
  deriving DecidableEq, Repr

/-- `Settings` DTO from `commands.rs`. -/
structure Settings where
  anthropic_api_key : Option String
  theme : String
  auto_save : Bool
  default_project_path : String
  deriving DecidableEq, Repr

/-- The SQLite database state visible to the commands under verification. -/
structure DB where
  projects : List ProjectRow
  messages : List MessageRow
  settings : List SettingRow
  auth_credentials : Option ClaudeCredentials
  deriving DecidableEq, Repr

/-- The empty store (fresh database after migrations, no user data). -/
def emptyDB : DB := ⟨[], [], [], none⟩

/-- Schema constraints maintained by SQLite (`database.rs` migrations):
primary keys of `projects` and `messages` are unique, every message's
`project_id` references an existing project (sqlx enables
`PRAGMA foreign_keys`), and `settings.key` is UNIQUE. -/
def DB.WF (db : DB) : Prop :=
  (db.projects.map (·.id)).Nodup ∧
  (db.messages.map (·.id)).Nodup ∧
  (∀ m ∈ db.messages, m.project_id ∈ db.projects.map (·.id)) ∧
  (db.settings.map (·.key)).Nodup

instance (db : DB) : Decidable db.WF := by
  unfold DB.WF
  infer_instance

/-- The alphabet used by `generate_id` in `commands.rs`. -/
def idAlphabet : List Char := "0123456789abcdefghijklmnopqrstuvwxyz".toList

/-- `generate_id` from `commands.rs`: `"<prefix>-<millis><6 random chars>"`.
The timestamp and the six random draws (indices into `idAlphabet`) are
parameters standing for `Utc::now()` and `rand::thread_rng()`. -/
def generate_id (pfx : String) (timestampMillis : Int) (draws : List Nat) : String :=
  pfx ++ "-" ++ toString timestampMillis ++ String.mk (draws.map fun i => idAlphabet.getD i '0')

/-- Fault oracle for the SQL statements issued by `save_project`: `true`
means the statement fails with a transient database error. -/
structure TxFaults where
  beginFail : Bool
  checkFail : Bool
  upsertFail : Bool
  deleteFail : Bool
  msgFail : Nat → Bool
  commitFail : Bool

/-- The all-succeed oracle (a healthy database). -/
def noFaults : TxFaults := ⟨false, false, false, false, fun _ => false, false⟩

/-- One row of the `messages` table as inserted by `save_project`. -/
def Message.toRow (m : Message) (pid now : String) : MessageRow :=
  ⟨m.id, m.role, m.content, pid, now⟩

/-- The message-insertion loop of `save_project` (commands.rs lines 159-174),
running inside the transaction's working state `rows`.  An insert fails on a
transient fault or on a `messages.id` primary-key collision. -/
def insertMessages (pid now : String) (fail : Nat → Bool) :
    Nat → List Message → List MessageRow → Except String (List MessageRow)
  | _, [], rows => .ok rows
  | i, m :: rest, rows =>
    if fail i then .error "Failed to insert message: database error"
    else if rows.any (·.id == m.id) then
      .error "Failed to insert message: UNIQUE constraint failed: messages.id"
    else insertMessages pid now fail (i + 1) rest (rows ++ [m.toRow pid now])

/-- `save_project` from `commands.rs`.  `genId` is the value
`generate_id("proj")` would produce on this call; `now` is
`Utc::now().to_rfc3339()`.  The transaction is modelled by computing the new
table contents on the side and publishing them only on commit: on any error
the returned state is the caller's state unchanged (rollback). -/
def save_project (req : SaveProjectRequest) (genId now : String) (f : TxFaults)
    (db : DB) : Except String String × DB :=
  if f.beginFail then (.error "Failed to start transaction", db)
  else
    let project_id := req.project_id.getD genId
    if f.checkFail then (.error "Failed to check existing project", db)
    else
      let existing := db.projects.any (·.id == project_id)
      if existing then
        if f.upsertFail then (.error "Failed to update project", db)
        else
          let projects' := db.projects.map fun p =>
            if p.id == project_id then
              { p with
                name := req.name
                project_type := req.project_type
                active_agents := req.active_agents
                current_code := req.current_code
                updated_at := now }
            else p
          if f.deleteFail then (.error "Failed to delete old messages", db)
          else
            let kept := db.messages.filter (fun m => !(m.project_id == project_id))
            match insertMessages project_id now f.msgFail 0 req.messages kept with
            | .error e => (.error e, db)
            | .ok messages' =>
              if f.commitFail then (.error "Failed to commit transaction", db)
              else (.ok project_id, { db with projects := projects', messages := messages' })
      else
        if f.upsertFail then (.error "Failed to insert project", db)
        else
          let newRow : ProjectRow :=
            ⟨project_id, req.name, none, req.project_type, req.active_agents,
              req.current_code, "PRIVATE", "local-user", now, now⟩
          let projects' := db.projects ++ [newRow]
          match insertMessages project_id now f.msgFail 0 req.messages db.messages with
          | .error e => (.error e, db)
          | .ok messages' =>
            if f.commitFail then (.error "Failed to commit transaction", db)
            else (.ok project_id, { db with projects := projects', messages := messages' })

/-- Comparison used to model `ORDER BY created_at ASC`: `a` may come before
`b` when `a.created_at ≤ b.created_at`. -/
def msgLE (a b : MessageRow) : Prop := ¬ b.created_at < a.created_at

instance : DecidableRel msgLE := fun _ _ => instDecidableNot

/-- `ORDER BY created_at ASC` as a stable sort: rows with equal keys stay in
rowid (insertion) order, matching SQLite's table-scan behaviour. -/
def sortAscByCreated (l : List MessageRow) : List MessageRow :=
  l.insertionSort msgLE

/-- `ProjectWithMessages` DTO from `commands.rs`. -/
structure ProjectWithMessages where
  id : String
  name : String
  description : Option String
  project_type : String
  active_agents : String
  current_code : Option String
  visibility : String
  user_id : String
  created_at : String
  updated_at : String
  messages : List Message
  deriving DecidableEq, Repr

/-- `load_project` from `commands.rs`: fetch the project row or fail with
NotFound, then fetch this project's messages `ORDER BY created_at ASC`. -/
def load_project (project_id : String) (db : DB) : Except String ProjectWithMessages :=
  match db.projects.find? (·.id == project_id) with
  | none => .error ("Project not found: " ++ project_id)
  | some p =>
    let rows := sortAscByCreated (db.messages.filter (·.project_id == project_id))
    .ok ⟨p.id, p.name, p.description, p.project_type, p.active_agents, p.current_code,
      p.visibility, p.user_id, p.created_at, p.updated_at,
      rows.map fun r => ⟨r.id, r.role, r.content⟩⟩

/-- Comparison used to model `ORDER BY updated_at DESC`: `a` may come before
`b` when `a.updated_at ≥ b.updated_at`. -/
def projGE (a b : ProjectRow) : Prop := ¬ a.updated_at < b.updated_at

instance : DecidableRel projGE := fun _ _ => instDecidableNot

/-- `ORDER BY updated_at DESC` as a stable sort. -/
def sortDescByUpdated (l : List ProjectRow) : List ProjectRow :=
  l.insertionSort projGE

/-- `list_projects` from `commands.rs`: the local user's projects ordered by
`updated_at` descending. -/
def list_projects (db : DB) : List ProjectRow :=
  sortDescByUpdated (db.projects.filter (·.user_id == "local-user"))

instance : IsTotal ProjectRow projGE :=
  ⟨fun a b => by
    unfold projGE
    rcases le_or_lt a.updated_at b.updated_at with h | h
    · exact Or.inr (not_lt.mpr h)
    · exact Or.inl (not_lt.mpr h.le)⟩

instance : IsTrans ProjectRow projGE :=
  ⟨fun _ _ _ hab hbc =>
    not_lt.mpr (le_trans (not_lt.mp hbc) (not_lt.mp hab))⟩

/-- A batch of fault-free `save_project` calls; each item carries the
request, the freshly generated id and the wall-clock value of that call. -/
def saveAll : List (SaveProjectRequest × String × String) → DB → DB
  | [], db => db
  | (req, gid, now) :: rest, db => saveAll rest (save_project req gid now noFaults db).2

/-- Whether every call in a batch of `save_project` calls succeeds. -/
def allSavesOk : List (SaveProjectRequest × String × String) → DB → Bool
  | [], _ => true
  | (req, gid, now) :: rest, db =>
    match save_project req gid now noFaults db with
    | (.ok _, db') => allSavesOk rest db'
    | (.error _, _) => false

/-- `delete_project` from `commands.rs`: delete the row (SQLite cascade
removes the project's messages), then fail with NotFound when zero rows were
affected. -/
def delete_project (project_id : String) (db : DB) : Except String Unit × DB :=
  let affected := db.projects.countP (·.id == project_id)
  let db' : DB :=
    { db with
      projects := db.projects.filter (fun p => !(p.id == project_id))
      messages := db.messages.filter (fun m => !(m.project_id == project_id)) }
  if affected == 0 then (.error ("Project not found: " ++ project_id), db')
  else (.ok (), db')

/-! ### Settings store (`save_settings` / `load_settings`, commands.rs) -/

/-- One `INSERT ... ON CONFLICT(key) DO UPDATE` of `save_settings`: on
conflict the existing row keeps its id and gets the new value and timestamp,
otherwise a fresh row (with id `generate_id("setting")`, here `sid`) is
appended. -/
def upsertSetting (sid k v now : String) (rows : List SettingRow) : List SettingRow :=
  if rows.any (·.key == k) then
    rows.map fun r => if r.key == k then { r with value := v, updated_at := now } else r
  else rows ++ [⟨sid, k, v, now⟩]

/-- `save_settings` from `commands.rs`: upsert the four recognized keys, the
optional api key stored as `unwrap_or_default()` (empty-string sentinel) and
`auto_save` as `to_string()`.  `sids` supplies the freshly generated setting
ids, indexed in loop order. -/
def save_settings (s : Settings) (now : String) (sids : Nat → String) (db : DB) : DB :=
  let pairs : List (String × String) :=
    [("anthropic_api_key", s.anthropic_api_key.getD ""),
     ("theme", s.theme),
     ("auto_save", toString s.auto_save),
     ("default_project_path", s.default_project_path)]
  { db with
    settings :=
      (pairs.enum.foldl (fun rows kvi => upsertSetting (sids kvi.1) kvi.2.1 kvi.2.2 now rows)
        db.settings) }

/-- `value.parse::<bool>().unwrap_or(true)`: Rust's `bool::from_str` accepts
exactly `"true"` and `"false"`. -/
def parseBoolOrTrue (v : String) : Bool :=
  if v == "true" then true else if v == "false" then false else true

/-- One iteration of the `load_settings` row loop: recognized keys update the
settings under construction (a non-empty value is required for the api key),
unrecognized rows are skipped. -/
def applySettingRow (acc : Settings) (r : SettingRow) : Settings :=
  if r.key == "anthropic_api_key" then
    if r.value == "" then acc else { acc with anthropic_api_key := some r.value }
  else if r.key == "theme" then { acc with theme := r.value }
  else if r.key == "auto_save" then { acc with auto_save := parseBoolOrTrue r.value }
  else if r.key == "default_project_path" then { acc with default_project_path := r.value }
  else acc

/-- The defaults `load_settings` starts from. -/
def defaultSettings : Settings :=
  ⟨none, "dark", true, "~/Documents/Vibing2Projects"⟩

/-- `load_settings` from `commands.rs`: fold the recognized rows over the
defaults. -/
def load_settings (db : DB) : Settings :=
  db.settings.foldl applySettingRow defaultSettings

/-! ### Credential resolution (`auth.rs`) -/

/-- `validate_api_key` from `auth.rs`, as a function of the remote probe's
outcome: `.error` is a transport failure, `.ok status` an HTTP response.
`status.is_success()` is 200–299; 401 maps to `Ok(false)`; anything else is
an error distinct from "invalid". -/
def validate_api_key (response : Except String Nat) : Except String Bool :=
  match response with
  | .error e => .error ("API request failed: " ++ e)
  | .ok status =>
    if 200 ≤ status ∧ status ≤ 299 then .ok true
    else if status == 401 then .ok false
    else .error ("Unexpected API response: " ++ toString status)

/-- `load_credentials_from_db` from `auth.rs`: the singleton row or an
error. -/
def load_credentials_from_db (db : DB) : Except String ClaudeCredentials :=
  match db.auth_credentials with
  | some c => .ok c
  | none => .error "No credentials found in database"

/-- `store_credentials_in_db` from `auth.rs`: `INSERT OR REPLACE` of the
fixed-id singleton row.  `storeOk` is the fault oracle for this statement. -/
def store_credentials_in_db (api_key : String) (email tier : Option String)
    (storeOk : Bool) (db : DB) : Except String Unit × DB :=
  if storeOk then (.ok (), { db with auth_credentials := some ⟨api_key, email, tier⟩ })
  else (.error "Database error: store failed", db)

/-- The fallthrough of `check_auth_status` once the keychain path did not
yield a validated key: try the database row, else report unauthenticated. -/
def checkAuthFallback (db : DB) : AuthStatus × DB :=
  match load_credentials_from_db db with
  | .ok creds => (⟨true, "database", creds.email⟩, db)
  | .error _ => (⟨false, "none", none⟩, db)

/-- `check_auth_status` from `auth.rs`: keychain first (validated remotely,
then persisted best-effort — the store result is discarded with `let _ =`),
then the database fallback, then "none".  `keychain` is the outcome of
`read_claude_code_keychain()`, `validate` the remote probe oracle. -/
def check_auth_status (keychain : Except String ClaudeCredentials)
    (validate : String → Except String Bool) (persistOk : Bool) (db : DB) :
    AuthStatus × DB :=
  match keychain with
  | .ok creds =>
    match validate creds.api_key with
    | .ok true =>
      let db' := (store_credentials_in_db creds.api_key creds.email
        creds.subscription_tier persistOk db).2
      (⟨true, "keychain", creds.email⟩, db')
    | _ => checkAuthFallback db
  | .error _ => checkAuthFallback db

/-- `save_api_key` from `commands.rs` (the manual `submit_api_key` entry
point): validate first; on `Ok(false)` or error return an explicit error
without touching the store; only on `Ok(true)` upsert the credential row
(`subscription_tier` is passed as `None`). -/
def save_api_key (api_key : String) (email : Option String)
    (validate : String → Except String Bool) (storeOk : Bool) (db : DB) :
    Except String Unit × DB :=
  match validate api_key with
  | .error e => (.error ("Validation failed: " ++ e), db)
  | .ok false => (.error "Invalid API key - authentication failed with Anthropic API", db)
  | .ok true =>
    match store_credentials_in_db api_key email none storeOk db with
    | (.ok _, db') => (.ok (), db')
    | (.error e, db') => (.error e, db')

/-! ## Helper lemmas -/

lemma insertMessages_ok_of_nodup (pid now : String) :
    ∀ (msgs : List Message) (i : Nat) (rows : List MessageRow),
      (msgs.map (·.id)).Nodup →
      (∀ m ∈ msgs, ∀ r ∈ rows, r.id ≠ m.id) →
      insertMessages pid now (fun _ => false) i msgs rows =
        .ok (rows ++ msgs.map (·.toRow pid now)) := by
  intro msgs
  induction msgs with
  | nil => intro i rows _ _; simp [insertMessages]
  | cons m rest ih =>
    intro i rows hnd hdisj
    have hany : rows.any (·.id == m.id) = false := by
      simp only [List.any_eq_false, beq_iff_eq]
      intro r hr
      exact hdisj m (List.mem_cons_self m rest) r hr
    rw [List.map_cons] at hnd
    rw [insertMessages, if_neg (by simp), hany]
    simp only [Bool.false_eq_true, if_false]
    rw [ih (i + 1) (rows ++ [m.toRow pid now])
      ((List.nodup_cons.mp hnd).2)
      (by
        intro m' hm' r hr
        rcases List.mem_append.mp hr with h | h
        · exact hdisj m' (List.mem_cons_of_mem m hm') r h
        · simp only [List.mem_singleton] at h
          subst h
          have hm : m.id ∉ rest.map (·.id) := (List.nodup_cons.mp hnd).1
          show m.id ≠ m'.id
          intro hEq
          exact hm (hEq ▸ List.mem_map_of_mem (·.id) hm'))]
    simp [Message.toRow]

lemma insertMessages_mem_of_ok (pid now : String) (fail : Nat → Bool) :
    ∀ (msgs : List Message) (i : Nat) (rows rows' : List MessageRow),
      insertMessages pid now fail i msgs rows = .ok rows' →
      ∀ r ∈ rows', r ∈ rows ∨ (r.project_id = pid ∧ r.created_at = now) := by
  intro msgs
  induction msgs with
  | nil =>
    intro i rows rows' h r hr
    simp only [insertMessages, Except.ok.injEq] at h
    exact Or.inl (h ▸ hr)
  | cons m rest ih =>
    intro i rows rows' h r hr
    rw [insertMessages] at h
    by_cases hf : fail i
    · simp [hf] at h
    · rw [if_neg hf] at h
      by_cases ha : rows.any (·.id == m.id)
      · simp [ha] at h
      · rw [if_neg ha] at h
        rcases ih (i + 1) (rows ++ [m.toRow pid now]) rows' h r hr with hmem | hnew
        · rcases List.mem_append.mp hmem with h1 | h1
          · exact Or.inl h1
          · simp only [List.mem_singleton] at h1
            exact Or.inr (by subst h1; exact ⟨rfl, rfl⟩)
        · exact Or.inr hnew

lemma insertMessages_error_of_fault (pid now : String) (fail : Nat → Bool) :
    ∀ (msgs : List Message) (i : Nat) (rows : List MessageRow),
      (∃ j < msgs.length, fail (i + j)) →
      ∃ e, insertMessages pid now fail i msgs rows = .error e := by
  intro msgs
  induction msgs with
  | nil => intro i rows ⟨j, hj, _⟩; simp at hj
  | cons m rest ih =>
    intro i rows ⟨j, hj, hfj⟩
    rw [insertMessages]
    by_cases hf : fail i
    · exact ⟨_, by rw [if_pos hf]⟩
    · rw [if_neg hf]
      by_cases ha : rows.any (·.id == m.id)
      · exact ⟨_, by rw [if_pos ha]⟩
      · rw [if_neg ha]
        have hj0 : j ≠ 0 := by rintro rfl; simp only [Nat.add_zero] at hfj; exact hf hfj
        refine ih (i + 1) (rows ++ [m.toRow pid now]) ⟨j - 1, ?_, ?_⟩
        · simp only [List.length_cons] at hj; omega
        · have : i + 1 + (j - 1) = i + j := by omega
          rw [this]; exact hfj

/-- The fault-free insert path of `save_project`, fully evaluated. -/
lemma save_project_insert_eq (req : SaveProjectRequest) (genId now : String) (db : DB)
    (hex : db.projects.any (·.id == req.project_id.getD genId) = false)
    (hnd : (req.messages.map (·.id)).Nodup)
    (hdisj : ∀ m ∈ req.messages, ∀ r ∈ db.messages, r.id ≠ m.id) :
    save_project req genId now noFaults db =
      (.ok (req.project_id.getD genId),
       { db with
         projects := db.projects ++
           [⟨req.project_id.getD genId, req.name, none, req.project_type,
             req.active_agents, req.current_code, "PRIVATE", "local-user", now, now⟩]
         messages := db.messages ++
           req.messages.map (·.toRow (req.project_id.getD genId) now) }) := by
  rw [save_project]
  simp only [noFaults, Bool.false_eq_true, if_false, hex,
    insertMessages_ok_of_nodup (req.project_id.getD genId) now req.messages 0 db.messages hnd hdisj]

/-- The fault-free update path of `save_project`, fully evaluated. -/
lemma save_project_update_eq (req : SaveProjectRequest) (genId now : String) (db : DB)
    (hex : db.projects.any (·.id == req.project_id.getD genId) = true)
    (hnd : (req.messages.map (·.id)).Nodup)
    (hdisj : ∀ m ∈ req.messages,
      ∀ r ∈ db.messages.filter (fun x => !(x.project_id == req.project_id.getD genId)),
        r.id ≠ m.id) :
    save_project req genId now noFaults db =
      (.ok (req.project_id.getD genId),
       { db with
         projects := db.projects.map fun p =>
           if p.id == req.project_id.getD genId then
             { p with
               name := req.name
               project_type := req.project_type
               active_agents := req.active_agents
               current_code := req.current_code
               updated_at := now }
           else p
         messages :=
           db.messages.filter (fun x => !(x.project_id == req.project_id.getD genId)) ++
             req.messages.map (·.toRow (req.project_id.getD genId) now) }) := by
  rw [save_project]
  simp only [noFaults, Bool.false_eq_true, if_false, hex, if_true,
    insertMessages_ok_of_nodup (req.project_id.getD genId) now req.messages 0 _ hnd hdisj]

/-- Rollback: whenever `save_project` reports an error, the returned state is
the caller's state (the transaction was never committed). -/
lemma save_project_error_snd (req : SaveProjectRequest) (genId now : String)
    (f : TxFaults) (db : DB) :
    ∀ e, (save_project req genId now f db).1 = .error e →
      (save_project req genId now f db).2 = db := by
  intro e he
  by_cases hb : f.beginFail
  · simp [save_project, hb]
  by_cases hc : f.checkFail
  · simp [save_project, hb, hc]
  by_cases hu : f.upsertFail
  · by_cases hx : db.projects.any (·.id == req.project_id.getD genId) <;>
      simp [save_project, hb, hc, hu, hx]
  by_cases hx : db.projects.any (·.id == req.project_id.getD genId)
  · by_cases hd : f.deleteFail
    · simp [save_project, hb, hc, hu, hx, hd]
    · rcases hi : insertMessages (req.project_id.getD genId) now f.msgFail 0 req.messages
          (db.messages.filter fun m => !(m.project_id == req.project_id.getD genId)) with e' | rows'
      · simp [save_project, hb, hc, hu, hx, hd, hi]
      · by_cases hcm : f.commitFail
        · simp [save_project, hb, hc, hu, hx, hd, hi, hcm]
        · simp [save_project, hb, hc, hu, hx, hd, hi, hcm] at he
  · rcases hi : insertMessages (req.project_id.getD genId) now f.msgFail 0 req.messages
        db.messages with e' | rows'
    · simp [save_project, hb, hc, hu, hx, hi]
    · by_cases hcm : f.commitFail
      · simp [save_project, hb, hc, hu, hx, hi, hcm]
      · simp [save_project, hb, hc, hu, hx, hi, hcm] at he

/-- Any failing statement on the executed path makes `save_project` return an
error. -/
lemma save_project_error_of_fault (req : SaveProjectRequest) (genId now : String)
    (f : TxFaults) (db : DB)
    (h : f.beginFail = true ∨ f.checkFail = true ∨ f.upsertFail = true ∨
      (db.projects.any (·.id == req.project_id.getD genId) = true ∧ f.deleteFail = true) ∨
      (∃ j < req.messages.length, f.msgFail j = true) ∨ f.commitFail = true) :
    ∃ e, (save_project req genId now f db).1 = .error e := by
  by_cases hb : f.beginFail
  · exact ⟨"Failed to start transaction", by simp [save_project, hb]⟩
  by_cases hc : f.checkFail
  · exact ⟨"Failed to check existing project", by simp [save_project, hb, hc]⟩
  by_cases hu : f.upsertFail
  · by_cases hx : db.projects.any (·.id == req.project_id.getD genId)
    · exact ⟨"Failed to update project", by simp [save_project, hb, hc, hu, hx]⟩
    · exact ⟨"Failed to insert project", by simp [save_project, hb, hc, hu, hx]⟩
  by_cases hx : db.projects.any (·.id == req.project_id.getD genId)
  · by_cases hd : f.deleteFail
    · exact ⟨"Failed to delete old messages", by simp [save_project, hb, hc, hu, hx, hd]⟩
    · have hrem : (∃ j < req.messages.length, f.msgFail j = true) ∨ f.commitFail = true := by
        rcases h with h | h | h | ⟨_, h⟩ | h | h
        · exact absurd h hb
        · exact absurd h hc
        · exact absurd h hu
        · exact absurd h hd
        · exact Or.inl h
        · exact Or.inr h
      rcases hi : insertMessages (req.project_id.getD genId) now f.msgFail 0 req.messages
          (db.messages.filter fun m => !(m.project_id == req.project_id.getD genId))
        with e' | rows'
      · exact ⟨e', by simp [save_project, hb, hc, hu, hx, hd, hi]⟩
      · have hcm : f.commitFail = true := by
          rcases hrem with ⟨j, hj, hfj⟩ | hcm
          · obtain ⟨e', he'⟩ := insertMessages_error_of_fault (req.project_id.getD genId) now
              f.msgFail req.messages 0
              (db.messages.filter fun m => !(m.project_id == req.project_id.getD genId))
              ⟨j, hj, by simpa using hfj⟩
            rw [hi] at he'
            exact absurd he' (by simp)
          · exact hcm
        exact ⟨"Failed to commit transaction",
          by simp [save_project, hb, hc, hu, hx, hd, hi, hcm]⟩
  · have hrem : (∃ j < req.messages.length, f.msgFail j = true) ∨ f.commitFail = true := by
      rcases h with h | h | h | ⟨h, _⟩ | h | h
      · exact absurd h hb
      · exact absurd h hc
      · exact absurd h hu
      · exact absurd h hx
      · exact Or.inl h
      · exact Or.inr h
    rcases hi : insertMessages (req.project_id.getD genId) now f.msgFail 0 req.messages
        db.messages with e' | rows'
    · exact ⟨e', by simp [save_project, hb, hc, hu, hx, hi]⟩
    · have hcm : f.commitFail = true := by
        rcases hrem with ⟨j, hj, hfj⟩ | hcm
        · obtain ⟨e', he'⟩ := insertMessages_error_of_fault (req.project_id.getD genId) now
            f.msgFail req.messages 0 db.messages ⟨j, hj, by simpa using hfj⟩
          rw [hi] at he'
          exact absurd he' (by simp)
        · exact hcm
      exact ⟨"Failed to commit transaction",
        by simp [save_project, hb, hc, hu, hx, hi, hcm]⟩

/-- All rows whose `created_at` equals a common value sort to themselves
(stability on equal keys). -/
lemma sortAscByCreated_const (now : String) :
    ∀ (l : List MessageRow), (∀ r ∈ l, r.created_at = now) → sortAscByCreated l = l := by
  intro l
  induction l with
  | nil => intro _; rfl
  | cons r rest ih =>
    intro h
    have hrest : sortAscByCreated rest = rest := ih fun s hs => h s (List.mem_cons_of_mem r hs)
    show (List.insertionSort msgLE (r :: rest)) = r :: rest
    rw [List.insertionSort]
    rw [show List.insertionSort msgLE rest = rest from hrest]
    cases rest with
    | nil => rfl
    | cons s rest' =>
      rw [List.orderedInsert, if_pos]
      show ¬ s.created_at < r.created_at
      rw [h s (by simp), h r (by simp)]
      exact lt_irrefl now

/-- Folding a batch of successful fresh inserts over a store appends exactly
one project row per item, in order, all owned by the local user. -/
lemma saveAll_ids :
    ∀ (items : List (SaveProjectRequest × String × String)) (db : DB),
      (∀ it ∈ items, it.1.project_id = none) →
      (items.map (·.2.1)).Nodup →
      (∀ it ∈ items, it.2.1 ∉ db.projects.map (·.id)) →
      allSavesOk items db = true →
      (saveAll items db).projects.map (·.id) =
        db.projects.map (·.id) ++ items.map (·.2.1) ∧
      (∀ p ∈ (saveAll items db).projects, p ∈ db.projects ∨ p.user_id = "local-user") := by
  intro items
  induction items with
  | nil =>
    intro db _ _ _ _
    exact ⟨by simp [saveAll], fun p hp => Or.inl hp⟩
  | cons it rest ih =>
    intro db hnone hnd hfresh hok
    obtain ⟨req, gid, now⟩ := it
    have hgetD : req.project_id.getD gid = gid := by
      rw [hnone (req, gid, now) (List.mem_cons_self _ _)]
      rfl
    have hfresh0 : gid ∉ db.projects.map (·.id) :=
      hfresh (req, gid, now) (List.mem_cons_self _ _)
    have hany : db.projects.any (·.id == gid) = false := by
      simp only [List.any_eq_false, beq_iff_eq]
      intro p hp hEq
      exact hfresh0 (hEq ▸ List.mem_map_of_mem (·.id) hp)
    rcases hi : insertMessages gid now (fun _ => false) 0 req.messages db.messages
      with e | rows'
    · exfalso
      have hfalse : allSavesOk ((req, gid, now) :: rest) db = false := by
        simp [allSavesOk, save_project, noFaults, hgetD, hany, hi]
      rw [hfalse] at hok
      cases hok
    · have hs : save_project req gid now noFaults db =
          (.ok gid,
           { db with
             projects := db.projects ++
               [⟨gid, req.name, none, req.project_type, req.active_agents,
                 req.current_code, "PRIVATE", "local-user", now, now⟩]
             messages := rows' }) := by
        simp [save_project, noFaults, hgetD, hany, hi]
      have hok' : allSavesOk rest
          ({ db with
             projects := db.projects ++
               [⟨gid, req.name, none, req.project_type, req.active_agents,
                 req.current_code, "PRIVATE", "local-user", now, now⟩]
             messages := rows' }) = true := by
        have := hok
        rw [allSavesOk, hs] at this
        exact this
      have hndr : (rest.map (·.2.1)).Nodup := by
        rw [List.map_cons] at hnd
        exact (List.nodup_cons.mp hnd).2
      have hgidnr : gid ∉ rest.map (·.2.1) := by
        rw [List.map_cons] at hnd
        exact (List.nodup_cons.mp hnd).1
      have hfreshr : ∀ it ∈ rest, it.2.1 ∉
          ({ db with
             projects := db.projects ++
               [⟨gid, req.name, none, req.project_type, req.active_agents,
                 req.current_code, "PRIVATE", "local-user", now, now⟩]
             messages := rows' } : DB).projects.map (·.id) := by
        intro it hit hmem
        rw [List.map_append] at hmem
        rcases List.mem_append.mp hmem with h | h
        · exact hfresh it (List.mem_cons_of_mem _ hit) h
        · simp only [List.map_cons, List.map_nil, List.mem_singleton] at h
          exact hgidnr (h ▸ List.mem_map_of_mem (·.2.1) hit)
      obtain ⟨hids, husr⟩ := ih _ (fun it hit => hnone it (List.mem_cons_of_mem _ hit))
        hndr hfreshr hok'
      constructor
      · show (saveAll ((req, gid, now) :: rest) db).projects.map (·.id) = _
        rw [saveAll, hs]
        rw [hids]
        simp
      · intro p hp
        rw [saveAll, hs] at hp
        rcases husr p hp with h | h
        · rcases List.mem_append.mp h with h' | h'
          · exact Or.inl h'
          · simp only [List.mem_singleton] at h'
            exact Or.inr (by rw [h'])
        · exact Or.inr h

/-- `find?` by id commutes with an id-preserving row transformation. -/
lemma find?_map_of_id_preserved (pid : String) (g : ProjectRow → ProjectRow)
    (hg : ∀ p, (g p).id = p.id) :
    ∀ l : List ProjectRow,
      (l.map g).find? (·.id == pid) = (l.find? (·.id == pid)).map g := by
  intro l
  induction l with
  | nil => rfl
  | cons p rest ih =>
    cases hb : (p.id == pid) with
    | true => simp [List.find?_cons, hg p, hb]
    | false => simp [List.find?_cons, hg p, hb, ih]

/-- Looking up the upserted key yields the new value. -/
lemma find?_upsert_self (sid k v now : String) (rows : List SettingRow) :
    ((upsertSetting sid k v now rows).find? (·.key == k)).map (·.value) = some v := by
  unfold upsertSetting
  by_cases ha : rows.any (·.key == k)
  · rw [if_pos ha]
    induction rows with
    | nil => simp at ha
    | cons r rest ih =>
      cases hr : (r.key == k) with
      | true =>
        rw [List.map_cons, if_pos hr, List.find?_cons_of_pos _ (by simpa using hr)]
        rfl
      | false =>
        rw [List.map_cons, if_neg (by simp [hr]), List.find?_cons_of_neg _ (by simp [hr])]
        apply ih
        rcases List.any_eq_true.mp ha with ⟨x, hx, hxk⟩
        rcases List.mem_cons.mp hx with rfl | hx'
        · rw [hxk] at hr; cases hr
        · exact List.any_eq_true.mpr ⟨x, hx', hxk⟩
  · rw [if_neg ha]
    have hnone : rows.find? (·.key == k) = none := by
      rw [List.find?_eq_none]
      intro x hx
      have ha' : rows.any (·.key == k) = false := by simpa using ha
      rw [List.any_eq_false] at ha'
      exact ha' x hx
    rw [List.find?_append, hnone, Option.none_or]
    simp

/-- Upserting key `k` does not change what a lookup of a different key
finds. -/
lemma find?_upsert_other (sid k v now k' : String) (hne : k' ≠ k)
    (rows : List SettingRow) :
    (upsertSetting sid k v now rows).find? (·.key == k') =
      rows.find? (·.key == k') := by
  unfold upsertSetting
  by_cases ha : rows.any (·.key == k)
  · rw [if_pos ha]
    clear ha
    induction rows with
    | nil => rfl
    | cons r rest ih =>
      cases hr : (r.key == k) with
      | true =>
        have hrk : r.key = k := by simpa using hr
        have hr' : (r.key == k') = false := by
          simp [hrk]
          exact fun h => hne h.symm
        rw [List.map_cons, if_pos hr, List.find?_cons_of_neg _ (by simp [hr']),
          List.find?_cons_of_neg _ (by simp [hr']), ih]
      | false =>
        rw [List.map_cons, if_neg (by simp [hr])]
        cases hr' : (r.key == k') with
        | true =>
          rw [List.find?_cons_of_pos _ (by simpa using hr'),
            List.find?_cons_of_pos _ (by simpa using hr')]
        | false =>
          rw [List.find?_cons_of_neg _ (by simp [hr']),
            List.find?_cons_of_neg _ (by simp [hr']), ih]
  · rw [if_neg ha, List.find?_append]
    have hnew : (([⟨sid, k, v, now⟩] : List SettingRow).find? (·.key == k')) = none := by
      rw [List.find?_eq_none]
      intro x hx
      simp only [List.mem_singleton] at hx
      subst hx
      intro hk
      have hkk : k = k' := by simpa using hk
      exact hne hkk.symm
    rw [hnew]
    simp

/-- Upserting preserves uniqueness of setting keys. -/
lemma upsert_keys_nodup (sid k v now : String) (rows : List SettingRow)
    (h : (rows.map (·.key)).Nodup) :
    ((upsertSetting sid k v now rows).map (·.key)).Nodup := by
  unfold upsertSetting
  by_cases ha : rows.any (·.key == k)
  · rw [if_pos ha]
    have hkeys : (rows.map fun r =>
        if r.key == k then ({ r with value := v, updated_at := now } : SettingRow)
        else r).map (·.key) = rows.map (·.key) := by
      rw [List.map_map]
      refine List.map_congr_left ?_
      intro r _
      show (if r.key == k then ({ r with value := v, updated_at := now } : SettingRow)
        else r).key = r.key
      by_cases hr : (r.key == k) = true
      · rw [if_pos hr]
      · rw [if_neg hr]
    rw [hkeys]
    exact h
  · rw [if_neg ha, List.map_append]
    rw [List.nodup_append]
    refine ⟨h, List.nodup_singleton _, ?_⟩
    intro a hax hak
    simp only [List.map_cons, List.map_nil, List.mem_singleton] at hak
    have ha' : rows.any (·.key == k) = false := by simpa using ha
    rw [List.any_eq_false] at ha'
    obtain ⟨r, hr, hrEq⟩ := List.mem_map.mp hax
    exact ha' r hr (by simp [hrEq, hak])

/-- `applySettingRow` leaves `anthropic_api_key` unchanged unless the row's
key is `"anthropic_api_key"`. -/
lemma applySettingRow_apikey_ne (acc : Settings) (r : SettingRow)
    (h : r.key ≠ "anthropic_api_key") :
    (applySettingRow acc r).anthropic_api_key = acc.anthropic_api_key := by
  unfold applySettingRow
  rw [if_neg (by simpa using h)]
  split_ifs <;> rfl

/-- `applySettingRow` leaves `theme` unchanged unless the row's key is
`"theme"`. -/
lemma applySettingRow_theme_ne (acc : Settings) (r : SettingRow)
    (h : r.key ≠ "theme") :
    (applySettingRow acc r).theme = acc.theme := by
  unfold applySettingRow
  split_ifs <;> simp_all

/-- `applySettingRow` leaves `auto_save` unchanged unless the row's key is
`"auto_save"`. -/
lemma applySettingRow_autosave_ne (acc : Settings) (r : SettingRow)
    (h : r.key ≠ "auto_save") :
    (applySettingRow acc r).auto_save = acc.auto_save := by
  unfold applySettingRow
  split_ifs <;> simp_all

/-- `applySettingRow` leaves `default_project_path` unchanged unless the
row's key is `"default_project_path"`. -/
lemma applySettingRow_path_ne (acc : Settings) (r : SettingRow)
    (h : r.key ≠ "default_project_path") :
    (applySettingRow acc r).default_project_path = acc.default_project_path := by
  unfold applySettingRow
  split_ifs <;> simp_all

lemma loadFold_apikey_skip :
    ∀ (rows : List SettingRow) (acc : Settings),
      (∀ r ∈ rows, r.key ≠ "anthropic_api_key") →
      (rows.foldl applySettingRow acc).anthropic_api_key = acc.anthropic_api_key := by
  intro rows
  induction rows with
  | nil => intro acc _; rfl
  | cons r rest ih =>
    intro acc h
    rw [List.foldl_cons, ih _ (fun x hx => h x (List.mem_cons_of_mem r hx)),
      applySettingRow_apikey_ne acc r (h r (List.mem_cons_self r rest))]

lemma loadFold_theme_skip :
    ∀ (rows : List SettingRow) (acc : Settings),
      (∀ r ∈ rows, r.key ≠ "theme") →
      (rows.foldl applySettingRow acc).theme = acc.theme := by
  intro rows
  induction rows with
  | nil => intro acc _; rfl
  | cons r rest ih =>
    intro acc h
    rw [List.foldl_cons, ih _ (fun x hx => h x (List.mem_cons_of_mem r hx)),
      applySettingRow_theme_ne acc r (h r (List.mem_cons_self r rest))]

lemma loadFold_autosave_skip :
    ∀ (rows : List SettingRow) (acc : Settings),
      (∀ r ∈ rows, r.key ≠ "auto_save") →
      (rows.foldl applySettingRow acc).auto_save = acc.auto_save := by
  intro rows
  induction rows with
  | nil => intro acc _; rfl
  | cons r rest ih =>
    intro acc h
    rw [List.foldl_cons, ih _ (fun x hx => h x (List.mem_cons_of_mem r hx)),
      applySettingRow_autosave_ne acc r (h r (List.mem_cons_self r rest))]

lemma loadFold_path_skip :
    ∀ (rows : List SettingRow) (acc : Settings),
      (∀ r ∈ rows, r.key ≠ "default_project_path") →
      (rows.foldl applySettingRow acc).default_project_path =
        acc.default_project_path := by
  intro rows
  induction rows with
  | nil => intro acc _; rfl
  | cons r rest ih =>
    intro acc h
    rw [List.foldl_cons, ih _ (fun x hx => h x (List.mem_cons_of_mem r hx)),
      applySettingRow_path_ne acc r (h r (List.mem_cons_self r rest))]

/-- With unique keys, the api-key field produced by the settings fold is
determined by the unique `"anthropic_api_key"` row (empty value = unset). -/
lemma loadFold_apikey :
    ∀ (rows : List SettingRow), (rows.map (·.key)).Nodup →
      ∀ acc : Settings,
        (rows.foldl applySettingRow acc).anthropic_api_key =
          (match rows.find? (·.key == "anthropic_api_key") with
           | some r => if r.value == "" then acc.anthropic_api_key else some r.value
           | none => acc.anthropic_api_key) := by
  intro rows
  induction rows with
  | nil => intro _ acc; rfl
  | cons r rest ih =>
    intro hnd acc
    rw [List.map_cons] at hnd
    cases hk : (r.key == "anthropic_api_key") with
    | true =>
      have hrk : r.key = "anthropic_api_key" := by simpa using hk
      have hrest : ∀ x ∈ rest, x.key ≠ "anthropic_api_key" := by
        intro x hx hEq
        exact (List.nodup_cons.mp hnd).1 (hrk ▸ hEq ▸ List.mem_map_of_mem (·.key) hx)
      rw [List.foldl_cons, List.find?_cons_of_pos _ (by simpa using hk),
        loadFold_apikey_skip rest _ hrest]
      unfold applySettingRow
      rw [if_pos hk]
      by_cases hv : (r.value == "") = true
      · simp [hv]
      · simp [hv]
    | false =>
      rw [List.foldl_cons, List.find?_cons_of_neg _ (by simp [hk]),
        ih (List.nodup_cons.mp hnd).2 _,
        applySettingRow_apikey_ne acc r (by simpa using hk)]

/-- With unique keys, the theme field is determined by the `"theme"` row. -/
lemma loadFold_theme :
    ∀ (rows : List SettingRow), (rows.map (·.key)).Nodup →
      ∀ acc : Settings,
        (rows.foldl applySettingRow acc).theme =
          (match rows.find? (·.key == "theme") with
           | some r => r.value
           | none => acc.theme) := by
  intro rows
  induction rows with
  | nil => intro _ acc; rfl
  | cons r rest ih =>
    intro hnd acc
    rw [List.map_cons] at hnd
    cases hk : (r.key == "theme") with
    | true =>
      have hrk : r.key = "theme" := by simpa using hk
      have hrest : ∀ x ∈ rest, x.key ≠ "theme" := by
        intro x hx hEq
        exact (List.nodup_cons.mp hnd).1 (hrk ▸ hEq ▸ List.mem_map_of_mem (·.key) hx)
      rw [List.foldl_cons, List.find?_cons_of_pos _ (by simpa using hk),
        loadFold_theme_skip rest _ hrest]
      unfold applySettingRow
      rw [if_neg (by simp [hrk]), if_pos hk]
    | false =>
      rw [List.foldl_cons, List.find?_cons_of_neg _ (by simp [hk]),
        ih (List.nodup_cons.mp hnd).2 _,
        applySettingRow_theme_ne acc r (by simpa using hk)]

/-- With unique keys, the auto-save field is determined by the
`"auto_save"` row, parsed with the `unwrap_or(true)` fallback. -/
lemma loadFold_autosave :
    ∀ (rows : List SettingRow), (rows.map (·.key)).Nodup →
      ∀ acc : Settings,
        (rows.foldl applySettingRow acc).auto_save =
          (match rows.find? (·.key == "auto_save") with
           | some r => parseBoolOrTrue r.value
           | none => acc.auto_save) := by
  intro rows
  induction rows with
  | nil => intro _ acc; rfl
  | cons r rest ih =>
    intro hnd acc
    rw [List.map_cons] at hnd
    cases hk : (r.key == "auto_save") with
    | true =>
      have hrk : r.key = "auto_save" := by simpa using hk
      have hrest : ∀ x ∈ rest, x.key ≠ "auto_save" := by
        intro x hx hEq
        exact (List.nodup_cons.mp hnd).1 (hrk ▸ hEq ▸ List.mem_map_of_mem (·.key) hx)
      rw [List.foldl_cons, List.find?_cons_of_pos _ (by simpa using hk),
        loadFold_autosave_skip rest _ hrest]
      unfold applySettingRow
      rw [if_neg (by simp [hrk]), if_neg (by simp [hrk]), if_pos hk]
    | false =>
      rw [List.foldl_cons, List.find?_cons_of_neg _ (by simp [hk]),
        ih (List.nodup_cons.mp hnd).2 _,
        applySettingRow_autosave_ne acc r (by simpa using hk)]

/-- With unique keys, the project-path field is determined by the
`"default_project_path"` row. -/
lemma loadFold_path :
    ∀ (rows : List SettingRow), (rows.map (·.key)).Nodup →
      ∀ acc : Settings,
        (rows.foldl applySettingRow acc).default_project_path =
          (match rows.find? (·.key == "default_project_path") with
           | some r => r.value
           | none => acc.default_project_path) := by
  intro rows
  induction rows with
  | nil => intro _ acc; rfl
  | cons r rest ih =>
    intro hnd acc
    rw [List.map_cons] at hnd
    cases hk : (r.key == "default_project_path") with
    | true =>
      have hrk : r.key = "default_project_path" := by simpa using hk
      have hrest : ∀ x ∈ rest, x.key ≠ "default_project_path" := by
        intro x hx hEq
        exact (List.nodup_cons.mp hnd).1 (hrk ▸ hEq ▸ List.mem_map_of_mem (·.key) hx)
      rw [List.foldl_cons, List.find?_cons_of_pos _ (by simpa using hk),
        loadFold_path_skip rest _ hrest]
      unfold applySettingRow
      rw [if_neg (by simp [hrk]), if_neg (by simp [hrk]), if_neg (by simp [hrk]),
        if_pos hk]
    | false =>
      rw [List.foldl_cons, List.find?_cons_of_neg _ (by simp [hk]),
        ih (List.nodup_cons.mp hnd).2 _,
        applySettingRow_path_ne acc r (by simpa using hk)]

/-- `save_settings` is the chain of the four upserts in loop order. -/
lemma save_settings_eq (s : Settings) (now : String) (sids : Nat → String) (db : DB) :
    (save_settings s now sids db).settings =
      upsertSetting (sids 3) "default_project_path" s.default_project_path now
        (upsertSetting (sids 2) "auto_save" (toString s.auto_save) now
          (upsertSetting (sids 1) "theme" s.theme now
            (upsertSetting (sids 0) "anthropic_api_key" (s.anthropic_api_key.getD "")
              now db.settings))) := rfl

/-! ## Claims -/

/-- C3: every statement of `save_project` (existence check, project
insert/update, deletion of old messages, insertion of new messages, commit)
runs inside one transaction: if any statement fails, the call returns an
error and the stored state is exactly the state before the call. -/
theorem save_project_transactional_atomicity
    (req : SaveProjectRequest) (genId now : String) (f : TxFaults) (db : DB) :
    (∀ e, (save_project req genId now f db).1 = .error e →
      (save_project req genId now f db).2 = db) ∧
    ((f.beginFail = true ∨ f.checkFail = true ∨ f.upsertFail = true ∨
      (db.projects.any (·.id == req.project_id.getD genId) = true ∧ f.deleteFail = true) ∨
      (∃ j < req.messages.length, f.msgFail j = true) ∨ f.commitFail = true) →
      ∃ e, (save_project req genId now f db).1 = .error e) :=
  ⟨save_project_error_snd req genId now f db, save_project_error_of_fault req genId now f db⟩

theorem save_project_transactional_atomicity_witness :
    (save_project ⟨none, "n", "web", "[]", [⟨"m1", "user", "hi"⟩], none⟩ "proj-w" "T"
        ⟨false, false, false, false, fun _ => false, true⟩ emptyDB).2 = emptyDB ∧
    ∃ e, (save_project ⟨none, "n", "web", "[]", [⟨"m1", "user", "hi"⟩], none⟩ "proj-w" "T"
        ⟨false, false, false, false, fun _ => false, true⟩ emptyDB).1 = .error e := by
  have h := save_project_transactional_atomicity
    ⟨none, "n", "web", "[]", [⟨"m1", "user", "hi"⟩], none⟩ "proj-w" "T"
    ⟨false, false, false, false, fun _ => false, true⟩ emptyDB
  exact ⟨h.1 "Failed to commit transaction" rfl,
    h.2 (Or.inr (Or.inr (Or.inr (Or.inr (Or.inr rfl)))))⟩

/-- C5: `validate_api_key` maps any 2xx status to valid (`Ok true`), exactly
401 to invalid (`Ok false`), every other status to an error distinct from
"invalid", and a transport failure to an error — never to `Ok false`. -/
theorem validate_api_key_three_way (s : Nat) (e : String) :
    (200 ≤ s ∧ s ≤ 299 → validate_api_key (.ok s) = .ok true) ∧
    (s = 401 → validate_api_key (.ok s) = .ok false) ∧
    (¬(200 ≤ s ∧ s ≤ 299) → s ≠ 401 →
      validate_api_key (.ok s) = .error ("Unexpected API response: " ++ toString s)) ∧
    validate_api_key (.error e) = .error ("API request failed: " ++ e) ∧
    (∀ b, validate_api_key (.error e) ≠ .ok b) := by
  refine ⟨fun h => ?_, fun h => ?_, fun h1 h2 => ?_, rfl, fun b => by simp [validate_api_key]⟩
  · rw [validate_api_key, if_pos h]
  · subst h
    rw [validate_api_key, if_neg (by omega)]
    simp
  · rw [validate_api_key, if_neg h1, if_neg (by simpa using h2)]

theorem validate_api_key_three_way_witness :
    validate_api_key (.ok 200) = .ok true ∧
    validate_api_key (.ok 299) = .ok true ∧
    validate_api_key (.ok 401) = .ok false ∧
    validate_api_key (.ok 500) = .error ("Unexpected API response: " ++ toString 500) ∧
    validate_api_key (.error "timeout") = .error ("API request failed: " ++ "timeout") :=
  ⟨(validate_api_key_three_way 200 "x").1 (by omega),
   (validate_api_key_three_way 299 "x").1 (by omega),
   (validate_api_key_three_way 401 "x").2.1 rfl,
   (validate_api_key_three_way 500 "x").2.2.1 (by omega) (by omega),
   (validate_api_key_three_way 500 "timeout").2.2.2.1⟩

/-- C6: the manual entry point `save_api_key` always validates before
persisting: on `Ok(false)` or a validation error it returns an explicit
error and leaves the stored credential record unchanged; the record can only
change when validation returned `Ok(true)`, and then it is upserted. -/
theorem save_api_key_validates_before_persist (key : String) (email : Option String)
    (validate : String → Except String Bool) (storeOk : Bool) (db : DB) :
    (validate key = .ok false →
      (save_api_key key email validate storeOk db).1 =
        .error "Invalid API key - authentication failed with Anthropic API" ∧
      (save_api_key key email validate storeOk db).2 = db) ∧
    (∀ e, validate key = .error e →
      (save_api_key key email validate storeOk db).1 = .error ("Validation failed: " ++ e) ∧
      (save_api_key key email validate storeOk db).2 = db) ∧
    ((save_api_key key email validate storeOk db).2.auth_credentials ≠ db.auth_credentials →
      validate key = .ok true) ∧
    (validate key = .ok true → storeOk = true →
      (save_api_key key email validate storeOk db).1 = .ok () ∧
      (save_api_key key email validate storeOk db).2.auth_credentials =
        some ⟨key, email, none⟩) := by
  refine ⟨fun hv => ?_, fun e hv => ?_, fun hch => ?_, fun hv hs => ?_⟩
  · simp [save_api_key, hv]
  · simp [save_api_key, hv]
  · rcases hv : validate key with e | b
    · simp [save_api_key, hv] at hch
    · cases b
      · simp [save_api_key, hv] at hch
      · rfl
  · subst hs
    simp [save_api_key, hv, store_credentials_in_db]

theorem save_api_key_validates_before_persist_witness :
    (save_api_key "bad" none (fun _ => .ok false) true emptyDB).1 =
      .error "Invalid API key - authentication failed with Anthropic API" ∧
    (save_api_key "bad" none (fun _ => .ok false) true emptyDB).2 = emptyDB ∧
    (save_api_key "k" none (fun _ => .error "net") true emptyDB).2 = emptyDB ∧
    (save_api_key "sk-ant-a" (some "u@x") (fun _ => .ok true) true emptyDB).2.auth_credentials =
      some ⟨"sk-ant-a", some "u@x", none⟩ := by
  refine ⟨?_, ?_, ?_, ?_⟩
  · exact ((save_api_key_validates_before_persist "bad" none (fun _ => .ok false)
      true emptyDB).1 rfl).1
  · exact ((save_api_key_validates_before_persist "bad" none (fun _ => .ok false)
      true emptyDB).1 rfl).2
  · exact ((save_api_key_validates_before_persist "k" none (fun _ => .error "net")
      true emptyDB).2.1 "net" rfl).2
  · exact ((save_api_key_validates_before_persist "sk-ant-a" (some "u@x") (fun _ => .ok true)
      true emptyDB).2.2.2 rfl rfl).2

/-- C4: `check_auth_status` resolves in fixed priority order: a keychain key
that validates is persisted best-effort (a persist failure does not change
the reported status) and reported as `authenticated=true, source="keychain"`;
otherwise a persisted database row is reported as `source="database"` without
consulting the remote validator; otherwise `authenticated=false,
source="none"`. -/
theorem check_credentials_status_priority
    (db : DB) (creds : ClaudeCredentials) (validate : String → Except String Bool)
    (persistOk : Bool) (e : String) :
    (validate creds.api_key = .ok true →
      (check_auth_status (.ok creds) validate persistOk db).1 =
        ⟨true, "keychain", creds.email⟩ ∧
      (persistOk = true →
        (check_auth_status (.ok creds) validate persistOk db).2.auth_credentials =
          some ⟨creds.api_key, creds.email, creds.subscription_tier⟩) ∧
      (persistOk = false →
        (check_auth_status (.ok creds) validate persistOk db).2 = db)) ∧
    (∀ c, db.auth_credentials = some c →
      (check_auth_status (.error e) validate persistOk db).1 = ⟨true, "database", c.email⟩ ∧
      (validate creds.api_key = .ok false →
        (check_auth_status (.ok creds) validate persistOk db).1 =
          ⟨true, "database", c.email⟩) ∧
      (∀ e', validate creds.api_key = .error e' →
        (check_auth_status (.ok creds) validate persistOk db).1 =
          ⟨true, "database", c.email⟩)) ∧
    (∀ v₁ v₂ : String → Except String Bool,
      check_auth_status (.error e) v₁ persistOk db =
        check_auth_status (.error e) v₂ persistOk db) ∧
    (db.auth_credentials = none →
      (check_auth_status (.error e) validate persistOk db).1 = ⟨false, "none", none⟩ ∧
      (validate creds.api_key = .ok false →
        (check_auth_status (.ok creds) validate persistOk db).1 =
          ⟨false, "none", none⟩)) := by
  refine ⟨fun hv => ⟨?_, fun hp => ?_, fun hp => ?_⟩,
    fun c hc => ⟨?_, fun hv => ?_, fun e' hv => ?_⟩, fun v₁ v₂ => ?_,
    fun hc => ⟨?_, fun hv => ?_⟩⟩
  · simp [check_auth_status, hv]
  · subst hp; simp [check_auth_status, hv, store_credentials_in_db]
  · subst hp; simp [check_auth_status, hv, store_credentials_in_db]
  · simp [check_auth_status, checkAuthFallback, load_credentials_from_db, hc]
  · simp [check_auth_status, checkAuthFallback, load_credentials_from_db, hc, hv]
  · simp [check_auth_status, checkAuthFallback, load_credentials_from_db, hc, hv]
  · simp [check_auth_status]
  · simp [check_auth_status, checkAuthFallback, load_credentials_from_db, hc]
  · simp [check_auth_status, checkAuthFallback, load_credentials_from_db, hc, hv]

theorem check_credentials_status_priority_witness :
    (check_auth_status (.ok ⟨"sk-ant-k", some "u@x", none⟩) (fun _ => .ok true) false
      emptyDB).1 = ⟨true, "keychain", some "u@x"⟩ ∧
    (check_auth_status (.ok ⟨"sk-ant-k", some "u@x", none⟩) (fun _ => .ok true) false
      emptyDB).2 = emptyDB ∧
    (check_auth_status (.error "no entry") (fun _ => .ok true) true
      ⟨[], [], [], some ⟨"k", some "d@x", none⟩⟩).1 = ⟨true, "database", some "d@x"⟩ ∧
    (check_auth_status (.error "no entry") (fun _ => .ok true) true emptyDB).1 =
      ⟨false, "none", none⟩ := by
  refine ⟨?_, ?_, ?_, ?_⟩
  · exact ((check_credentials_status_priority emptyDB ⟨"sk-ant-k", some "u@x", none⟩
      (fun _ => .ok true) false "no entry").1 rfl).1
  · exact ((check_credentials_status_priority emptyDB ⟨"sk-ant-k", some "u@x", none⟩
      (fun _ => .ok true) false "no entry").1 rfl).2.2 rfl
  · exact ((check_credentials_status_priority ⟨[], [], [], some ⟨"k", some "d@x", none⟩⟩
      ⟨"sk-ant-k", some "u@x", none⟩ (fun _ => .ok true) true "no entry").2.1
      ⟨"k", some "d@x", none⟩ rfl).1
  · exact ((check_credentials_status_priority emptyDB ⟨"sk-ant-k", some "u@x", none⟩
      (fun _ => .ok true) true "no entry").2.2.2 rfl).1

/-- C7: `delete_project` returns NotFound exactly when zero rows were
affected; deleting an existing id succeeds and cascade-removes the project's
messages, after which `load_project` and a second `delete_project` on that id
both report NotFound. -/
theorem delete_project_notfound_semantics (pid : String) (db : DB)
    (hex : pid ∈ db.projects.map (·.id)) :
    (delete_project pid db).1 = .ok () ∧
    (∀ p ∈ (delete_project pid db).2.projects, p.id ≠ pid) ∧
    (∀ m ∈ (delete_project pid db).2.messages, m.project_id ≠ pid) ∧
    load_project pid (delete_project pid db).2 = .error ("Project not found: " ++ pid) ∧
    (delete_project pid (delete_project pid db).2).1 =
      .error ("Project not found: " ++ pid) ∧
    (∀ db' : DB, (delete_project pid db').1 = .error ("Project not found: " ++ pid) ↔
      db'.projects.countP (·.id == pid) = 0) := by
  have hcount : db.projects.countP (·.id == pid) ≠ 0 := by
    obtain ⟨p, hp, hpid⟩ := List.mem_map.mp hex
    have : 0 < db.projects.countP (·.id == pid) :=
      List.countP_pos_iff.mpr ⟨p, hp, by simpa using hpid⟩
    omega
  have hproj : ∀ p ∈ (delete_project pid db).2.projects, p.id ≠ pid := by
    intro p hp
    rw [delete_project] at hp
    by_cases hz : db.projects.countP (·.id == pid) == 0
    · exact absurd (by simpa using hz) hcount
    · simp only [hz, Bool.false_eq_true, if_false] at hp
      have := (List.mem_filter.mp hp).2
      simpa using this
  have hmsg : ∀ m ∈ (delete_project pid db).2.messages, m.project_id ≠ pid := by
    intro m hm
    rw [delete_project] at hm
    by_cases hz : db.projects.countP (·.id == pid) == 0
    · exact absurd (by simpa using hz) hcount
    · simp only [hz, Bool.false_eq_true, if_false] at hm
      have := (List.mem_filter.mp hm).2
      simpa using this
  have hiff : ∀ db' : DB,
      (delete_project pid db').1 = .error ("Project not found: " ++ pid) ↔
        db'.projects.countP (·.id == pid) = 0 := by
    intro db'
    rw [delete_project]
    by_cases hz : db'.projects.countP (·.id == pid) = 0
    · simp [hz]
    · simp [hz]
  refine ⟨?_, hproj, hmsg, ?_, ?_, hiff⟩
  · simp only [delete_project]
    rw [if_neg (by simpa using hcount)]
  · rw [load_project]
    have : (delete_project pid db).2.projects.find? (·.id == pid) = none := by
      rw [List.find?_eq_none]
      intro p hp
      simpa using hproj p hp
    rw [this]
  · rw [hiff]
    rw [List.countP_eq_zero]
    intro p hp
    simpa using hproj p hp

/-- C1: saving a valid request with no `project_id` returns the freshly
generated ID prefixed `"proj-"`, and loading that ID afterwards returns the
same name, the same project type and exactly the submitted message list in
submission order. -/
theorem save_new_project_load_roundtrip (req : SaveProjectRequest) (ts : Int)
    (draws : List Nat) (now : String) (db : DB) (hWF : db.WF)
    (hnone : req.project_id = none)
    (hfresh : generate_id "proj" ts draws ∉ db.projects.map (·.id))
    (hnd : (req.messages.map (·.id)).Nodup)
    (hdisj : ∀ m ∈ req.messages, m.id ∉ db.messages.map (·.id)) :
    (∃ rest, generate_id "proj" ts draws = "proj-" ++ rest) ∧
    (save_project req (generate_id "proj" ts draws) now noFaults db).1 =
      .ok (generate_id "proj" ts draws) ∧
    ∃ pw, load_project (generate_id "proj" ts draws)
        (save_project req (generate_id "proj" ts draws) now noFaults db).2 = .ok pw ∧
      pw.name = req.name ∧ pw.project_type = req.project_type ∧
      pw.messages = req.messages := by
  have hgetD : req.project_id.getD (generate_id "proj" ts draws) =
      generate_id "proj" ts draws := by rw [hnone]; rfl
  have hanyf : db.projects.any (·.id == generate_id "proj" ts draws) = false := by
    simp only [List.any_eq_false, beq_iff_eq]
    intro p hp hEq
    exact hfresh (hEq ▸ List.mem_map_of_mem (·.id) hp)
  have hdisj' : ∀ m ∈ req.messages, ∀ r ∈ db.messages, r.id ≠ m.id := by
    intro m hm r hr hEq
    exact hdisj m hm (hEq ▸ List.mem_map_of_mem (·.id) hr)
  have hsave := save_project_insert_eq req (generate_id "proj" ts draws) now db
    (by rw [hgetD]; exact hanyf) hnd hdisj'
  rw [hgetD] at hsave
  refine ⟨⟨toString ts ++ String.mk (draws.map fun i => idAlphabet.getD i '0'), ?_⟩,
    by rw [hsave], ?_⟩
  · show generate_id "proj" ts draws = _
    unfold generate_id
    have h1 : "proj" ++ "-" = "proj-" := rfl
    rw [h1, String.append_assoc]
  · rw [hsave]
    have hfind : (db.projects ++
        [(⟨generate_id "proj" ts draws, req.name, none, req.project_type,
          req.active_agents, req.current_code, "PRIVATE", "local-user", now, now⟩ :
          ProjectRow)]).find? (·.id == generate_id "proj" ts draws) =
        some ⟨generate_id "proj" ts draws, req.name, none, req.project_type,
          req.active_agents, req.current_code, "PRIVATE", "local-user", now, now⟩ := by
      rw [List.find?_append]
      have hnone' : db.projects.find? (·.id == generate_id "proj" ts draws) = none := by
        rw [List.find?_eq_none]
        intro p hp hEq
        exact hfresh ((beq_iff_eq.mp hEq) ▸ List.mem_map_of_mem (·.id) hp)
      rw [hnone']
      simp
    have hfilt : ((db.messages ++
        req.messages.map (·.toRow (generate_id "proj" ts draws) now)).filter
          (·.project_id == generate_id "proj" ts draws)) =
        req.messages.map (·.toRow (generate_id "proj" ts draws) now) := by
      rw [List.filter_append]
      have h1 : db.messages.filter (·.project_id == generate_id "proj" ts draws) = [] := by
        rw [List.filter_eq_nil_iff]
        intro m hm hEq
        exact hfresh ((beq_iff_eq.mp hEq) ▸ hWF.2.2.1 m hm)
      have h2 : (req.messages.map (·.toRow (generate_id "proj" ts draws) now)).filter
          (·.project_id == generate_id "proj" ts draws) =
          req.messages.map (·.toRow (generate_id "proj" ts draws) now) := by
        rw [List.filter_eq_self]
        intro r hr
        obtain ⟨m, _, rfl⟩ := List.mem_map.mp hr
        simp [Message.toRow]
      rw [h1, h2, List.nil_append]
    have hsort : sortAscByCreated
        (req.messages.map (·.toRow (generate_id "proj" ts draws) now)) =
        req.messages.map (·.toRow (generate_id "proj" ts draws) now) := by
      refine sortAscByCreated_const now _ ?_
      intro r hr
      obtain ⟨m, _, rfl⟩ := List.mem_map.mp hr
      rfl
    have hback : (req.messages.map (·.toRow (generate_id "proj" ts draws) now)).map
        (fun r => (⟨r.id, r.role, r.content⟩ : Message)) = req.messages := by
      rw [List.map_map]
      exact List.map_id req.messages
    refine ⟨⟨generate_id "proj" ts draws, req.name, none, req.project_type,
      req.active_agents, req.current_code, "PRIVATE", "local-user", now, now,
      req.messages⟩, ?_, rfl, rfl, rfl⟩
    simp only [load_project, hfind]
    rw [hfilt, hsort, hback]

/-- C2: saving with an existing project id deletes all previously stored
messages of that project and inserts exactly the supplied list, so loading
afterwards returns a message count equal to the new list's length (not old
plus new); the update path refreshes `updated_at` and preserves
`created_at`. -/
theorem save_existing_project_replaces_messages (req : SaveProjectRequest)
    (genId now pid : String) (db : DB) (hWF : db.WF)
    (hpid : req.project_id = some pid)
    (hex : pid ∈ db.projects.map (·.id))
    (hnd : (req.messages.map (·.id)).Nodup)
    (hdisj : ∀ m ∈ req.messages, ∀ r ∈ db.messages, r.project_id ≠ pid → r.id ≠ m.id) :
    (save_project req genId now noFaults db).1 = .ok pid ∧
    ∃ pw, load_project pid (save_project req genId now noFaults db).2 = .ok pw ∧
      pw.messages = req.messages ∧
      pw.messages.length = req.messages.length ∧
      pw.updated_at = now ∧
      ∀ p ∈ db.projects, p.id = pid → pw.created_at = p.created_at := by
  have hgetD : req.project_id.getD genId = pid := by rw [hpid]; rfl
  have hany : db.projects.any (·.id == pid) = true := by
    obtain ⟨p, hp, hpidEq⟩ := List.mem_map.mp hex
    exact List.any_eq_true.mpr ⟨p, hp, by simpa using hpidEq⟩
  have hdisj' : ∀ m ∈ req.messages,
      ∀ r ∈ db.messages.filter (fun x => !(x.project_id == pid)), r.id ≠ m.id := by
    intro m hm r hr
    have h1 := List.mem_filter.mp hr
    exact hdisj m hm r h1.1 (by simpa using h1.2)
  have hsave := save_project_update_eq req genId now db
    (by rw [hgetD]; exact hany) hnd (by rw [hgetD]; exact hdisj')
  rw [hgetD] at hsave
  obtain ⟨old, hold⟩ : ∃ old, db.projects.find? (·.id == pid) = some old := by
    have hs : (db.projects.find? (·.id == pid)).isSome := by
      rw [List.find?_isSome]
      obtain ⟨p, hp, hpidEq⟩ := List.mem_map.mp hex
      exact ⟨p, hp, by simpa using hpidEq⟩
    exact Option.isSome_iff_exists.mp hs
  have holdMem : old ∈ db.projects := List.mem_of_find?_eq_some hold
  have holdId : old.id = pid := by simpa using List.find?_some hold
  have hidpres : ∀ p : ProjectRow,
      ((fun p => if p.id == pid then
        ({ p with
            name := req.name
            project_type := req.project_type
            active_agents := req.active_agents
            current_code := req.current_code
            updated_at := now } : ProjectRow)
        else p) p).id = p.id := by
    intro p
    by_cases h : (p.id == pid) = true <;> simp [h]
  have hproj2 : (save_project req genId now noFaults db).2.projects.find?
      (·.id == pid) = some
        ({ old with
            name := req.name
            project_type := req.project_type
            active_agents := req.active_agents
            current_code := req.current_code
            updated_at := now } : ProjectRow) := by
    rw [hsave]
    dsimp only
    rw [find?_map_of_id_preserved pid _ hidpres, hold, Option.map_some']
    rw [if_pos (by simpa using holdId)]
  have hmsgs2 : (save_project req genId now noFaults db).2.messages.filter
      (·.project_id == pid) = req.messages.map (·.toRow pid now) := by
    rw [hsave]
    dsimp only
    rw [List.filter_append]
    have h1 : (db.messages.filter (fun x => !(x.project_id == pid))).filter
        (·.project_id == pid) = [] := by
      rw [List.filter_eq_nil_iff]
      intro r hr
      simpa using (List.mem_filter.mp hr).2
    have h2 : (req.messages.map (·.toRow pid now)).filter
        (·.project_id == pid) = req.messages.map (·.toRow pid now) := by
      rw [List.filter_eq_self]
      intro r hr
      obtain ⟨m, _, rfl⟩ := List.mem_map.mp hr
      simp [Message.toRow]
    rw [h1, h2, List.nil_append]
  have hsort : sortAscByCreated (req.messages.map (·.toRow pid now)) =
      req.messages.map (·.toRow pid now) := by
    refine sortAscByCreated_const now _ ?_
    intro r hr
    obtain ⟨m, _, rfl⟩ := List.mem_map.mp hr
    rfl
  have hback : (req.messages.map (·.toRow pid now)).map
      (fun r => (⟨r.id, r.role, r.content⟩ : Message)) = req.messages := by
    rw [List.map_map]
    exact List.map_id req.messages
  refine ⟨by rw [hsave], ⟨old.id, req.name, old.description, req.project_type,
    req.active_agents, req.current_code, old.visibility, old.user_id,
    old.created_at, now, req.messages⟩, ?_, rfl, rfl, rfl, ?_⟩
  · simp only [load_project, hproj2]
    rw [hmsgs2, hsort, hback]
  · intro p hp hpEq
    have : p = old := List.inj_on_of_nodup_map hWF.1 hp holdMem (by rw [hpEq, holdId])
    rw [this]

theorem save_existing_project_replaces_messages_witness :
    (save_project ⟨some "proj-1", "Renamed", "web", "[]",
        [⟨"m2", "user", "a"⟩, ⟨"m3", "assistant", "b"⟩], some "code"⟩ "unused" "T2"
        noFaults ⟨[⟨"proj-1", "Old", none, "web", "[]", none, "PRIVATE", "local-user",
          "T1", "T1"⟩], [⟨"m1", "user", "old msg", "proj-1", "T1"⟩], [], none⟩).1 =
      .ok "proj-1" ∧
    ∃ pw : ProjectWithMessages, load_project "proj-1"
        (save_project ⟨some "proj-1", "Renamed", "web", "[]",
          [⟨"m2", "user", "a"⟩, ⟨"m3", "assistant", "b"⟩], some "code"⟩ "unused" "T2"
          noFaults ⟨[⟨"proj-1", "Old", none, "web", "[]", none, "PRIVATE", "local-user",
            "T1", "T1"⟩], [⟨"m1", "user", "old msg", "proj-1", "T1"⟩], [], none⟩).2 =
        .ok pw ∧
      pw.messages = [⟨"m2", "user", "a"⟩, ⟨"m3", "assistant", "b"⟩] ∧
      pw.messages.length = ([⟨"m2", "user", "a"⟩, ⟨"m3", "assistant", "b"⟩] :
        List Message).length ∧
      pw.updated_at = "T2" ∧
      ∀ p ∈ ([⟨"proj-1", "Old", none, "web", "[]", none, "PRIVATE", "local-user",
          "T1", "T1"⟩] : List ProjectRow), p.id = "proj-1" →
        pw.created_at = p.created_at :=
  save_existing_project_replaces_messages
    ⟨some "proj-1", "Renamed", "web", "[]",
      [⟨"m2", "user", "a"⟩, ⟨"m3", "assistant", "b"⟩], some "code"⟩ "unused" "T2" "proj-1"
    ⟨[⟨"proj-1", "Old", none, "web", "[]", none, "PRIVATE", "local-user", "T1", "T1"⟩],
      [⟨"m1", "user", "old msg", "proj-1", "T1"⟩], [], none⟩
    (by decide) rfl (by decide) (by decide) (by decide)

/-- C10: every message row inserted by one successful `save_project` call
carries one identical `created_at` — the single timestamp taken at the start
of the call — which is also written as the project's `updated_at`; the
per-message timestamps within one save are equal, not strictly ascending. -/
theorem save_project_single_timestamp (req : SaveProjectRequest) (genId now pid : String)
    (f : TxFaults) (db : DB) (hWF : db.WF)
    (hok : (save_project req genId now f db).1 = .ok pid) :
    (∀ m ∈ (save_project req genId now f db).2.messages,
      m.project_id = pid → m.created_at = now) ∧
    (∀ p ∈ (save_project req genId now f db).2.projects,
      p.id = pid → p.updated_at = now) := by
  by_cases hb : f.beginFail
  · simp [save_project, hb] at hok
  by_cases hc : f.checkFail
  · simp [save_project, hb, hc] at hok
  by_cases hu : f.upsertFail
  · by_cases hx : db.projects.any (·.id == req.project_id.getD genId) <;>
      simp [save_project, hb, hc, hu, hx] at hok
  by_cases hx : db.projects.any (·.id == req.project_id.getD genId)
  · by_cases hd : f.deleteFail
    · simp [save_project, hb, hc, hu, hx, hd] at hok
    rcases hi : insertMessages (req.project_id.getD genId) now f.msgFail 0 req.messages
        (db.messages.filter fun m => !(m.project_id == req.project_id.getD genId))
      with e' | rows'
    · simp [save_project, hb, hc, hu, hx, hd, hi] at hok
    by_cases hcm : f.commitFail
    · simp [save_project, hb, hc, hu, hx, hd, hi, hcm] at hok
    have hpid : req.project_id.getD genId = pid := by
      simpa [save_project, hb, hc, hu, hx, hd, hi, hcm] using hok
    refine ⟨?_, ?_⟩
    · intro m hm hmp
      have hm' : m ∈ rows' := by
        simpa [save_project, hb, hc, hu, hx, hd, hi, hcm] using hm
      rcases insertMessages_mem_of_ok _ _ _ _ _ _ _ hi m hm' with hkept | hnew
      · have h2 := (List.mem_filter.mp hkept).2
        rw [hpid] at h2
        simp [hmp] at h2
      · exact hnew.2
    · intro p hp hpEq
      simp only [save_project, hb, hc, hu, hx, hd, hi, hcm, Bool.false_eq_true, if_false,
        if_true, List.mem_map] at hp
      obtain ⟨q, hq, hqp⟩ := hp
      by_cases hqid : (q.id == req.project_id.getD genId) = true
      · rw [if_pos hqid] at hqp
        rw [← hqp]
      · rw [if_neg hqid] at hqp
        rw [hpid] at hqid
        rw [← hqp] at hpEq
        simp [hpEq] at hqid
  · rcases hi : insertMessages (req.project_id.getD genId) now f.msgFail 0 req.messages
        db.messages with e' | rows'
    · simp [save_project, hb, hc, hu, hx, hi] at hok
    by_cases hcm : f.commitFail
    · simp [save_project, hb, hc, hu, hx, hi, hcm] at hok
    have hpid : req.project_id.getD genId = pid := by
      simpa [save_project, hb, hc, hu, hx, hi, hcm] using hok
    have hnotin : pid ∉ db.projects.map (·.id) := by
      rw [← hpid]
      intro hmem
      obtain ⟨q, hq, hqEq⟩ := List.mem_map.mp hmem
      have hx' : db.projects.any (·.id == req.project_id.getD genId) = false := by
        simpa using hx
      rw [List.any_eq_false] at hx'
      exact hx' q hq (by simpa using hqEq)
    refine ⟨?_, ?_⟩
    · intro m hm hmp
      have hm' : m ∈ rows' := by
        simpa [save_project, hb, hc, hu, hx, hi, hcm] using hm
      rcases insertMessages_mem_of_ok _ _ _ _ _ _ _ hi m hm' with hold | hnew
      · exact absurd (hmp ▸ hWF.2.2.1 m hold) hnotin
      · exact hnew.2
    · intro p hp hpEq
      simp only [save_project, hb, hc, hu, hx, hi, hcm, Bool.false_eq_true, if_false,
        List.mem_append, List.mem_singleton] at hp
      rcases hp with hp | hp
      · exact absurd (hpEq ▸ List.mem_map_of_mem (·.id) hp) hnotin
      · rw [hp]

/-- C8: `list_projects` returns exactly the local user's projects ordered by
`updated_at` descending; on the empty store it returns the empty list, and
after inserting N distinct projects it returns exactly N entries. -/
theorem list_projects_complete_and_ordered (db : DB)
    (items : List (SaveProjectRequest × String × String))
    (hnone : ∀ it ∈ items, it.1.project_id = none)
    (hnd : (items.map (·.2.1)).Nodup)
    (hok : allSavesOk items emptyDB = true) :
    list_projects emptyDB = [] ∧
    (list_projects db).Perm (db.projects.filter (·.user_id == "local-user")) ∧
    (list_projects db).Pairwise (fun a b => b.updated_at ≤ a.updated_at) ∧
    (list_projects (saveAll items emptyDB)).length = items.length := by
  obtain ⟨hids, husr⟩ := saveAll_ids items emptyDB hnone hnd
    (by intro it _ h; simp [emptyDB] at h) hok
  refine ⟨rfl, List.perm_insertionSort projGE _, ?_, ?_⟩
  · exact (List.sorted_insertionSort projGE _).imp fun h => not_lt.mp h
  · have hall : (saveAll items emptyDB).projects.filter (·.user_id == "local-user") =
        (saveAll items emptyDB).projects := by
      rw [List.filter_eq_self]
      intro p hp
      rcases husr p hp with h | h
      · simp [emptyDB] at h
      · simpa using h
    have hlen : (list_projects (saveAll items emptyDB)).length =
        ((saveAll items emptyDB).projects.filter (·.user_id == "local-user")).length :=
      (List.perm_insertionSort projGE _).length_eq
    rw [hlen, hall]
    have := congrArg List.length hids
    simpa [emptyDB] using this

theorem list_projects_complete_and_ordered_witness :
    list_projects emptyDB = [] ∧
    (list_projects ⟨[⟨"proj-a", "A", none, "web", "[]", none, "PRIVATE", "local-user",
        "T1", "T1"⟩, ⟨"proj-b", "B", none, "web", "[]", none, "PRIVATE", "other-user",
        "T2", "T2"⟩, ⟨"proj-c", "C", none, "web", "[]", none, "PRIVATE", "local-user",
        "T3", "T3"⟩], [], [], none⟩).Perm
      ((⟨[⟨"proj-a", "A", none, "web", "[]", none, "PRIVATE", "local-user", "T1", "T1"⟩,
        ⟨"proj-b", "B", none, "web", "[]", none, "PRIVATE", "other-user", "T2", "T2"⟩,
        ⟨"proj-c", "C", none, "web", "[]", none, "PRIVATE", "local-user", "T3", "T3"⟩],
        [], [], none⟩ : DB).projects.filter (·.user_id == "local-user")) ∧
    (list_projects ⟨[⟨"proj-a", "A", none, "web", "[]", none, "PRIVATE", "local-user",
        "T1", "T1"⟩, ⟨"proj-b", "B", none, "web", "[]", none, "PRIVATE", "other-user",
        "T2", "T2"⟩, ⟨"proj-c", "C", none, "web", "[]", none, "PRIVATE", "local-user",
        "T3", "T3"⟩], [], [], none⟩).Pairwise (fun a b => b.updated_at ≤ a.updated_at) ∧
    (list_projects (saveAll [(⟨none, "A", "web", "[]", [], none⟩, "proj-a", "T1"),
        (⟨none, "B", "web", "[]", [], none⟩, "proj-b", "T2")] emptyDB)).length =
      ([(⟨none, "A", "web", "[]", [], none⟩, "proj-a", "T1"),
        (⟨none, "B", "web", "[]", [], none⟩, "proj-b", "T2")] :
        List (SaveProjectRequest × String × String)).length := by
  have h := list_projects_complete_and_ordered
    ⟨[⟨"proj-a", "A", none, "web", "[]", none, "PRIVATE", "local-user", "T1", "T1"⟩,
      ⟨"proj-b", "B", none, "web", "[]", none, "PRIVATE", "other-user", "T2", "T2"⟩,
      ⟨"proj-c", "C", none, "web", "[]", none, "PRIVATE", "local-user", "T3", "T3"⟩],
      [], [], none⟩
    [(⟨none, "A", "web", "[]", [], none⟩, "proj-a", "T1"),
     (⟨none, "B", "web", "[]", [], none⟩, "proj-b", "T2")]
    (by decide) (by decide) rfl
  exact h

/-- C9 (counterexample): the claim "every `Settings` value round-trips every
field exactly, a set api key round-trips to the same string" fails at the
set-but-empty api key `some ""`: the empty-string sentinel makes
`load_settings` read it back as unset (`none`). -/
theorem settings_roundtrip_counterexample :
    load_settings (save_settings ⟨some "", "dark", true, "p"⟩ "T" (fun _ => "sid")
      emptyDB) ≠ (⟨some "", "dark", true, "p"⟩ : Settings) := by
  decide

/-- C9 (amended): `save_settings` followed by `load_settings` round-trips
every field exactly — including `auto_save = false`, a custom
`default_project_path`, and an unset api key (stored as the empty-string
sentinel, read back as unset) — for every `Settings` value whose api key is
not the set-but-empty string `some ""` (which collapses to unset). -/
theorem settings_roundtrip (s : Settings) (now : String) (sids : Nat → String)
    (db : DB) (hnd : (db.settings.map (·.key)).Nodup)
    (hkey : s.anthropic_api_key ≠ some "") :
    load_settings (save_settings s now sids db) = s := by
  have h1 := upsert_keys_nodup (sids 0) "anthropic_api_key"
    (s.anthropic_api_key.getD "") now db.settings hnd
  have h2 := upsert_keys_nodup (sids 1) "theme" s.theme now _ h1
  have h3 := upsert_keys_nodup (sids 2) "auto_save" (toString s.auto_save) now _ h2
  have h4 := upsert_keys_nodup (sids 3) "default_project_path"
    s.default_project_path now _ h3
  have la : (((save_settings s now sids db).settings.find?
      (·.key == "anthropic_api_key")).map (·.value)) =
      some (s.anthropic_api_key.getD "") := by
    rw [save_settings_eq,
      find?_upsert_other _ _ _ _ _ (by decide) _,
      find?_upsert_other _ _ _ _ _ (by decide) _,
      find?_upsert_other _ _ _ _ _ (by decide) _]
    exact find?_upsert_self _ _ _ _ _
  have lt : (((save_settings s now sids db).settings.find?
      (·.key == "theme")).map (·.value)) = some s.theme := by
    rw [save_settings_eq,
      find?_upsert_other _ _ _ _ _ (by decide) _,
      find?_upsert_other _ _ _ _ _ (by decide) _]
    exact find?_upsert_self _ _ _ _ _
  have lb : (((save_settings s now sids db).settings.find?
      (·.key == "auto_save")).map (·.value)) = some (toString s.auto_save) := by
    rw [save_settings_eq,
      find?_upsert_other _ _ _ _ _ (by decide) _]
    exact find?_upsert_self _ _ _ _ _
  have lp : (((save_settings s now sids db).settings.find?
      (·.key == "default_project_path")).map (·.value)) =
      some s.default_project_path := by
    rw [save_settings_eq]
    exact find?_upsert_self _ _ _ _ _
  have hnd4 : ((save_settings s now sids db).settings.map (·.key)).Nodup := by
    rw [save_settings_eq]
    exact h4
  obtain ⟨rA, hfA, hvA⟩ := Option.map_eq_some'.mp la
  obtain ⟨rT, hfT, hvT⟩ := Option.map_eq_some'.mp lt
  obtain ⟨rB, hfB, hvB⟩ := Option.map_eq_some'.mp lb
  obtain ⟨rP, hfP, hvP⟩ := Option.map_eq_some'.mp lp
  have hA2 : (load_settings (save_settings s now sids db)).anthropic_api_key =
      if rA.value == "" then defaultSettings.anthropic_api_key else some rA.value := by
    show ((save_settings s now sids db).settings.foldl applySettingRow
      defaultSettings).anthropic_api_key = _
    rw [loadFold_apikey _ hnd4 defaultSettings, hfA]
  have hT2 : (load_settings (save_settings s now sids db)).theme = rT.value := by
    show ((save_settings s now sids db).settings.foldl applySettingRow
      defaultSettings).theme = _
    rw [loadFold_theme _ hnd4 defaultSettings, hfT]
  have hB2 : (load_settings (save_settings s now sids db)).auto_save =
      parseBoolOrTrue rB.value := by
    show ((save_settings s now sids db).settings.foldl applySettingRow
      defaultSettings).auto_save = _
    rw [loadFold_autosave _ hnd4 defaultSettings, hfB]
  have hP2 : (load_settings (save_settings s now sids db)).default_project_path =
      rP.value := by
    show ((save_settings s now sids db).settings.foldl applySettingRow
      defaultSettings).default_project_path = _
    rw [loadFold_path _ hnd4 defaultSettings, hfP]
  have hAfin : (load_settings (save_settings s now sids db)).anthropic_api_key =
      s.anthropic_api_key := by
    rw [hA2]
    rcases hs : s.anthropic_api_key with _ | kk
    · rw [hs] at hvA
      rw [if_pos (by simp [hvA])]
      rfl
    · have hkk : kk ≠ "" := by
        intro hEq
        exact hkey (by rw [hs, hEq])
      rw [hs] at hvA
      simp only [Option.getD_some] at hvA
      rw [if_neg (by simp [hvA, hkk]), hvA]
  have hBfin : (load_settings (save_settings s now sids db)).auto_save =
      s.auto_save := by
    rw [hB2, hvB]
    cases s.auto_save <;> rfl
  have heta : load_settings (save_settings s now sids db) =
      ⟨(load_settings (save_settings s now sids db)).anthropic_api_key,
       (load_settings (save_settings s now sids db)).theme,
       (load_settings (save_settings s now sids db)).auto_save,
       (load_settings (save_settings s now sids db)).default_project_path⟩ := rfl
  rw [heta, hAfin, hT2, hvT, hBfin, hP2, hvP]

theorem settings_roundtrip_witness :
    load_settings (save_settings ⟨some "sk-ant-x", "light", false, "/tmp/projects"⟩
      "T3" (fun _ => "sid") emptyDB) =
      ⟨some "sk-ant-x", "light", false, "/tmp/projects"⟩ :=
  settings_roundtrip ⟨some "sk-ant-x", "light", false, "/tmp/projects"⟩ "T3"
    (fun _ => "sid") emptyDB (by decide) (by decide)

theorem save_project_single_timestamp_witness :
    (emptyDB.WF) ∧
    (save_project ⟨none, "P", "web", "[]", [⟨"m1", "user", "x"⟩, ⟨"m2", "assistant", "y"⟩],
        none⟩ "proj-9" "T5" noFaults emptyDB).1 = .ok "proj-9" ∧
    (∀ m ∈ (save_project ⟨none, "P", "web", "[]",
        [⟨"m1", "user", "x"⟩, ⟨"m2", "assistant", "y"⟩], none⟩ "proj-9" "T5" noFaults
        emptyDB).2.messages, m.project_id = "proj-9" → m.created_at = "T5") ∧
    (∀ p ∈ (save_project ⟨none, "P", "web", "[]",
        [⟨"m1", "user", "x"⟩, ⟨"m2", "assistant", "y"⟩], none⟩ "proj-9" "T5" noFaults
        emptyDB).2.projects, p.id = "proj-9" → p.updated_at = "T5") := by
  have h := save_project_single_timestamp
    ⟨none, "P", "web", "[]", [⟨"m1", "user", "x"⟩, ⟨"m2", "assistant", "y"⟩], none⟩
    "proj-9" "T5" "proj-9" noFaults emptyDB (by decide) rfl
  exact ⟨by decide, rfl, h.1, h.2⟩

theorem save_new_project_load_roundtrip_witness :
    (∃ rest, generate_id "proj" 1700000000000 [0, 1, 2, 3, 4, 5] = "proj-" ++ rest) ∧
    (save_project ⟨none, "Test Project", "web", "[]",
        [⟨"m1", "user", "Create a todo app"⟩], none⟩
        (generate_id "proj" 1700000000000 [0, 1, 2, 3, 4, 5]) "T1" noFaults emptyDB).1 =
      .ok (generate_id "proj" 1700000000000 [0, 1, 2, 3, 4, 5]) ∧
    ∃ pw, load_project (generate_id "proj" 1700000000000 [0, 1, 2, 3, 4, 5])
        (save_project ⟨none, "Test Project", "web", "[]",
          [⟨"m1", "user", "Create a todo app"⟩], none⟩
          (generate_id "proj" 1700000000000 [0, 1, 2, 3, 4, 5]) "T1" noFaults emptyDB).2 =
        .ok pw ∧
      pw.name = "Test Project" ∧ pw.project_type = "web" ∧
      pw.messages = [⟨"m1", "user", "Create a todo app"⟩] :=
  save_new_project_load_roundtrip
    ⟨none, "Test Project", "web", "[]", [⟨"m1", "user", "Create a todo app"⟩], none⟩
    1700000000000 [0, 1, 2, 3, 4, 5] "T1" emptyDB (by decide) rfl (by simp [emptyDB])
    (by decide) (by simp [emptyDB])

theorem delete_project_notfound_semantics_witness :
    "proj-1" ∈ (⟨[⟨"proj-1", "n", none, "web", "[]", none, "PRIVATE", "local-user",
        "T1", "T1"⟩], [⟨"m1", "user", "hi", "proj-1", "T1"⟩], [], none⟩ : DB).projects.map
        (·.id) ∧
    (delete_project "proj-1" ⟨[⟨"proj-1", "n", none, "web", "[]", none, "PRIVATE",
      "local-user", "T1", "T1"⟩], [⟨"m1", "user", "hi", "proj-1", "T1"⟩], [], none⟩).1 =
      .ok () ∧
    load_project "proj-1" (delete_project "proj-1" ⟨[⟨"proj-1", "n", none, "web", "[]",
      none, "PRIVATE", "local-user", "T1", "T1"⟩], [⟨"m1", "user", "hi", "proj-1", "T1"⟩],
      [], none⟩).2 = .error ("Project not found: " ++ "proj-1") := by
  refine ⟨by decide, ?_, ?_⟩
  · exact (delete_project_notfound_semantics "proj-1" ⟨[⟨"proj-1", "n", none, "web", "[]",
      none, "PRIVATE", "local-user", "T1", "T1"⟩], [⟨"m1", "user", "hi", "proj-1", "T1"⟩],
      [], none⟩ (by decide)).1
  · exact (delete_project_notfound_semantics "proj-1" ⟨[⟨"proj-1", "n", none, "web", "[]",
      none, "PRIVATE", "local-user", "T1", "T1"⟩], [⟨"m1", "user", "hi", "proj-1", "T1"⟩],
      [], none⟩ (by decide)).2.2.2.1

end Vibing2
